import Mathlib

/-!  Shallow embedding of the request/response correlation core of
`deribit-python`: `src/deribit_python/async_client.py` (the receive loop
`_listen` and the dispatcher `_make_request`), together with the envelope
types of `src/deribit_python/models.py` (`JsonRpcRequest`, `JsonRpcResponse`)
and the error machinery of `src/deribit_python/exceptions.py`
(`ERROR_CODE_MAP`, `raise_deribit_exception`).  -/

namespace DeribitSpec

/-- Python values as produced by `json.loads`: JSON trees.  `null` also
stands for Python `None` (a parsed JSON `null` IS Python `None`).  Numbers
are modelled as integers; every number this protocol's control fields use
(error codes, ids) is integral. -/
inductive JVal : Type
  | null
  | bool (b : Bool)
  | num (n : Int)
  | str (s : String)
  | arr (elems : List JVal)
  | obj (entries : List (String × JVal))

/-- Python `d.get(k)` on a dict, modelled as an association list (first match
wins; a parsed JSON object has unique keys): `some v` when the key is
present, `none` when absent. -/
def jsonGet (d : List (String × JVal)) (k : String) : Option JVal :=
  (d.find? (fun e => e.1 == k)).map (fun e => e.2)

/-- Python truthiness of a value (`if self.error:`, `message or default`). -/
def pyTruthy : JVal → Bool
  | .null => false
  | .bool b => b
  | .num n => n != 0
  | .str s => s != ""
  | .arr elems => !elems.isEmpty
  | .obj entries => !entries.isEmpty

/-- The Python test `v is None`. -/
def isNull : JVal → Bool
  | .null => true
  | _ => false

/-- The correlation table `self.pending_requests`: request id (a
`str(uuid.uuid4())`) ↦ future.  Futures are identified by opaque tokens
(`Nat`); the claims are about which entry is registered, resolved or
removed, never about a future's internals. -/
abbrev Table := List (String × Nat)

/-- Membership test `k in self.pending_requests`. -/
def tableMember (P : Table) (k : String) : Bool :=
  P.any (fun e => e.1 == k)

/-- Deletion `del self.pending_requests[k]` (removes the entry for `k`; a Python dict
holds each key at most once, so erasing the first match is exact). -/
def tableDelete (P : Table) (k : String) : Table :=
  P.eraseP (fun e => e.1 == k)

/-- Assignment `self.pending_requests[k] = tok` (dict assignment: replaces any previous
binding of `k`). -/
def tableInsert (P : Table) (k : String) (tok : Nat) : Table :=
  (k, tok) :: tableDelete P k

/-- One inbound frame as seen through `json.loads`: either the raw text is
not valid JSON (`json.loads` raises `JSONDecodeError`) or it decodes to a
JSON value. -/
inductive Frame
  | undecodable
  | decoded (v : JVal)

/-- One event delivered by `await self.websocket.recv()` inside `_listen`:
an inbound frame, or the `websockets.ConnectionClosed` exception. -/
inductive Event
  | closed
  | frame (f : Frame)

/-- Status of the listener task. -/
inductive RunStatus
  | running
  | crashed      -- an uncaught exception escaped the task
  | closedExit   -- `except websockets.ConnectionClosed: pass` — normal return
deriving DecidableEq

/-- Observable state of the listener task: the shared table, the ordered log
of `future.set_result(response)` calls it has performed (as (id, response)
pairs), and whether it is still running. -/
structure ListenState where
  table : Table
  resolvedLog : List (String × JVal)
  status : RunStatus

/-- The membership test `message_id in self.pending_requests` of line 70:
table keys are the `str(uuid4())` request ids, so the test succeeds exactly
when `message_id` is a string currently present as a key; the matched key is
returned. -/
def midKey (P : Table) (mid : JVal) : Option String :=
  match mid with
  | .str s => if tableMember P s then some s else none
  | _ => none

/-- One iteration of `_listen`'s body (async_client.py lines 66-75) on one
receive event.  The only `except` clause catches `websockets.ConnectionClosed`
and does `pass`, ending the loop; a `json.loads` failure, or `.get` called on
a decoded non-dict value (`AttributeError`), is uncaught and crashes the
task.  A frame whose id matches a pending entry gets
`set_result(response)` followed by `del`; any other frame is dropped and the
loop continues.  No path fails a future or clears the table. -/
def listenStep (st : ListenState) (e : Event) : ListenState :=
  if st.status ≠ .running then st
  else
    match e with
    | .closed => { st with status := .closedExit }
    | .frame .undecodable => { st with status := .crashed }
    | .frame (.decoded v) =>
      match v with
      | .obj entries =>
        match midKey st.table ((jsonGet entries "id").getD .null) with
        | some s =>
          { st with
              table := tableDelete st.table s
              resolvedLog := st.resolvedLog ++ [(s, v)] }
        | none => st
      | _ => { st with status := .crashed }

/-- Run of the listener over a finite prefix of receive events. -/
def listenRun (st : ListenState) (evs : List Event) : ListenState :=
  evs.foldl listenStep st

/-- The value of `self.websocket` when `_make_request` runs: `None` (never
connected), an open connection, or a closed one — `close()` and `__aexit__`
close the websocket but never reset the attribute, so after a close it is
still a (truthy) websocket object. -/
inductive WsState
  | absent
  | wsOpen
  | wsClosed
deriving DecidableEq

/-- The externally visible actions of one `_make_request` execution, in
program order. -/
inductive Action
  | guardRaise                    -- `raise RuntimeError("WebSocket connection is not open...")`
  | registerFuture (id : String)  -- `self.pending_requests[msg.request_id] = future`
  | send (id : String)            -- `await self.websocket.send(msg.to_json())`
  | sendRaise                     -- that send raised `websockets.ConnectionClosed`
  | awaitFuture (id : String)     -- `response = await future`
deriving DecidableEq

/-- How `_make_request` leaves its caller at the end of the modelled prefix. -/
inductive MakeReqOutcome
  | notOpenError           -- RuntimeError from the `if not self.websocket` guard
  | sendClosedError        -- ConnectionClosed propagated out of `websocket.send`
  | awaiting (id : String) -- suspended on `await future`
deriving DecidableEq

structure DispatchResult where
  table : Table
  outcome : MakeReqOutcome
  trace : List Action
deriving DecidableEq

/-- Embedding of `_make_request` (async_client.py lines 77-95) up to its suspension on the
future, run with table `P`, the fresh `msg.request_id = id`, and the newly
created future `tok`.  The guard `if not self.websocket` fires only when the
attribute is `None`; otherwise the future is stored in the table (inside
`async with self.pending_requests_lock`) and the encoded request is sent.
`websocket.send` on a closed connection raises `ConnectionClosed`; there is
no `try`/`except` around it, so the exception propagates to the caller and no
statement removes the just-registered entry. -/
def makeRequest (ws : WsState) (P : Table) (id : String) (tok : Nat) : DispatchResult :=
  if ws = .absent then
    { table := P, outcome := .notOpenError, trace := [.guardRaise] }
  else
    let P' := tableInsert P id tok
    if ws = .wsClosed then
      { table := P', outcome := .sendClosedError,
        trace := [.registerFuture id, .send id, .sendRaise] }
    else
      { table := P', outcome := .awaiting id,
        trace := [.registerFuture id, .send id, .awaitFuture id] }

/-- A single mutation of the shared `pending_requests` dict, tagged with
whether the code performing it holds `pending_requests_lock` at that point. -/
inductive MutOp
  | register (id : String)
  | resolveAndDelete (id : String)
deriving DecidableEq

structure Mutation where
  op : MutOp
  heldLock : Bool
deriving DecidableEq

/-- The table mutations of one `_make_request` dispatch: the single
registration, performed inside `async with self.pending_requests_lock`
(async_client.py lines 88-89). -/
def dispatcherMutations (id : String) : List Mutation :=
  [{ op := .register id, heldLock := true }]

/-- The table mutations of one matching-id iteration of `_listen`:
`set_result` plus `del` (lines 70-73).  `_listen` never acquires
`pending_requests_lock` — there is no `async with` in its body. -/
def listenerMutations (id : String) : List Mutation :=
  [{ op := .resolveAndDelete id, heldLock := false }]

/-- models.py `JsonRpcRequest` after `__post_init__`: `request_id` has been
defaulted to `str(uuid.uuid4())` and `params` to `{}`, so both are plain
values; `jsonrpc` defaults to `"2.0"`. -/
structure JsonRpcRequest where
  method : String
  params : List (String × JVal)
  request_id : String
  jsonrpc : String := "2.0"

/-- models.py lines 363-375, `JsonRpcRequest.to_dict`.  (The duplicate class
in jsonrpc.py builds the same four-key dict with `"jsonrpc"` hard-coded to
`"2.0"`; `to_json` is `json.dumps` of this dict in both files.) -/
def JsonRpcRequest.to_dict (r : JsonRpcRequest) : List (String × JVal) :=
  [("jsonrpc", .str r.jsonrpc),
   ("method", .str r.method),
   ("params", .obj r.params),
   ("id", .str r.request_id)]

/-- models.py `JsonRpcResponse`.  Fields hold Python values; `JVal.null` is
Python `None` (the dataclass defaults, and what `dict.get` returns for an
absent key). -/
structure JsonRpcResponse where
  result : JVal
  error : JVal
  request_id : JVal
  jsonrpc : JVal
  metadata : List (String × JVal)

/-- models.py lines 405-422, `JsonRpcResponse.from_dict`. -/
def JsonRpcResponse.from_dict (data : List (String × JVal)) : JsonRpcResponse :=
  { result := (jsonGet data "result").getD .null
    error := (jsonGet data "error").getD .null
    request_id := (jsonGet data "id").getD .null
    jsonrpc := (jsonGet data "jsonrpc").getD (.str "2.0")
    metadata :=
      data.filter (fun e => !(["result", "error", "id", "jsonrpc"].contains e.1)) }

/-- models.py lines 468-476, the `is_error` property: `self.error is not None`. -/
def JsonRpcResponse.is_error (r : JsonRpcResponse) : Bool :=
  !(isNull r.error)

/-- models.py lines 478-486, the `error_code` property:
`self.error.get("code") if self.error else None`.  The conditional tests
truthiness; when `self.error` is truthy but not a dict, `.get` raises
`AttributeError`, modelled as `none`. -/
def JsonRpcResponse.error_code (r : JsonRpcResponse) : Option JVal :=
  if pyTruthy r.error then
    match r.error with
    | .obj entries => some ((jsonGet entries "code").getD .null)
    | _ => none
  else some .null

/-- models.py lines 488-496, the `error_message` property, same shape as
`error_code` with key `"message"`. -/
def JsonRpcResponse.error_message (r : JsonRpcResponse) : Option JVal :=
  if pyTruthy r.error then
    match r.error with
    | .obj entries => some ((jsonGet entries "message").getD .null)
    | _ => none
  else some .null

/-- Assignment `dict[k] = v` on an association-list dict: replaces the value in place
when the key is present, appends otherwise (Python insertion-order
semantics). -/
def dictSet (d : List (String × JVal)) (k : String) (v : JVal) : List (String × JVal) :=
  if d.any (fun e => e.1 == k) then
    d.map (fun e => if e.1 == k then (k, v) else e)
  else d ++ [(k, v)]

/-- Update `data.update(m)`: sets every key of `m`, in order. -/
def dictUpdate (d m : List (String × JVal)) : List (String × JVal) :=
  m.foldl (fun acc e => dictSet acc e.1 e.2) d

/-- models.py lines 437-457, `JsonRpcResponse.to_dict`: start from
`{"jsonrpc": .., "id": ..}`; add `"error"` when `self.error is not None`,
else `"result"`; then `data.update(self.metadata)`. -/
def JsonRpcResponse.to_dict (r : JsonRpcResponse) : List (String × JVal) :=
  let data : List (String × JVal) := [("jsonrpc", r.jsonrpc), ("id", r.request_id)]
  let data :=
    if isNull r.error then data ++ [("result", r.result)]
    else data ++ [("error", r.error)]
  dictUpdate data r.metadata

/-- Membership test `k in d` for a dict. -/
def hasKey (d : List (String × JVal)) (k : String) : Bool :=
  d.any (fun e => e.1 == k)

/-- The exception classes of exceptions.py. -/
inductive ExcClass
  | invalidRequest
  | authenticationError
  | authorizationError
  | notFoundError
  | methodNotFoundError
  | invalidParamsError
  | internalError
  | serviceUnavailableError
  | requestLimitExceeded
  | invalidSession
  | unsupportedError
  | deribitAPIException   -- the base class, also the `.get` default
deriving DecidableEq

/-- exceptions.py lines 68-80, `ERROR_CODE_MAP`. -/
def ERROR_CODE_MAP : List (Int × ExcClass) :=
  [(-32600, .invalidRequest),
   (-32601, .methodNotFoundError),
   (-32602, .invalidParamsError),
   (-32603, .internalError),
   (-32000, .authenticationError),
   (-32001, .authorizationError),
   (-32002, .notFoundError),
   (-32003, .invalidSession),
   (-32004, .unsupportedError),
   (-32005, .requestLimitExceeded),
   (-32099, .serviceUnavailableError)]

/-- The default text each subclass's `__init__` substitutes via
`message or "..."`; the base class stores its argument unchanged (`none`). -/
def defaultMessage : ExcClass → Option String
  | .invalidRequest => some "Invalid request (missing or invalid fields)."
  | .authenticationError => some "Authentication failed."
  | .authorizationError => some "Client is not authorized to access the requested resource."
  | .notFoundError => some "Requested resource was not found."
  | .methodNotFoundError => some "Requested method was not found."
  | .invalidParamsError => some "Invalid method parameters."
  | .internalError => some "Internal error."
  | .serviceUnavailableError => some "Service temporarily unavailable."
  | .requestLimitExceeded => some "Request rate limit exceeded."
  | .invalidSession => some "Session is invalid or expired."
  | .unsupportedError => some "Feature not supported."
  | .deribitAPIException => none

/-- A raised Deribit exception: its class and the message it stores.  The
numeric error code is not a field — no class in exceptions.py stores it. -/
structure DeribitExc where
  cls : ExcClass
  message : JVal

/-- Constructing `exc_class(message)`: subclasses apply `message or default`
(Python truthiness), the base class stores the argument as-is. -/
def mkExc (cls : ExcClass) (message : JVal) : DeribitExc :=
  match defaultMessage cls with
  | none => { cls := cls, message := message }
  | some d => { cls := cls, message := if pyTruthy message then message else .str d }

/-- exceptions.py lines 83-85, `raise_deribit_exception`:
`ERROR_CODE_MAP.get(code, DeribitAPIException)` then `raise exc_class(message)`.
The dict is keyed by ints, so only an integral `code` can match. -/
def raise_deribit_exception (code message : JVal) : DeribitExc :=
  let cls :=
    match ERROR_CODE_MAP.find? (fun e => match code with | .num n => n == e.1 | _ => false) with
    | some e => e.2
    | none => .deribitAPIException
  mkExc cls message

/-- What the resumed `_make_request` does with the response its future was
resolved with. -/
inductive CallOutcome
  | result (v : JVal)        -- `return jsonrpc_response.result`
  | raised (e : DeribitExc)  -- `raise_deribit_exception(...)` raised
  | attrError                -- `AttributeError`: `.get` on a truthy non-dict error

/-- async_client.py lines 96-102: the tail of `_make_request` after
`response = await future` —
`JsonRpcResponse.from_dict`, the `is_error` test, and either
`raise_deribit_exception(error_code, error_message)` or
`return jsonrpc_response.result`. -/
def finishRequest (response : List (String × JVal)) : CallOutcome :=
  let r := JsonRpcResponse.from_dict response
  if r.is_error then
    match r.error_code, r.error_message with
    | some c, some m => .raised (raise_deribit_exception c m)
    | _, _ => .attrError
  else .result r.result

/-- Number of entries of an association list carrying key `k` (used for the
correlation table and for the listener's resolution log). -/
def keyCount {α : Type} (l : List (String × α)) (k : String) : Nat :=
  match l with
  | [] => 0
  | e :: tl => (if e.1 == k then 1 else 0) + keyCount tl k

/- ========================  theorems  ======================== -/

theorem keyCount_append {α : Type} (l1 l2 : List (String × α)) (k : String) :
    keyCount (l1 ++ l2) k = keyCount l1 k + keyCount l2 k := by
  induction l1 with
  | nil => simp [keyCount]
  | cons e tl ih => simp [keyCount, ih]; omega

theorem keyCount_eq_zero {α : Type} (l : List (String × α)) (k : String)
    (h : k ∉ l.map Prod.fst) : keyCount l k = 0 := by
  induction l with
  | nil => rfl
  | cons e tl ih =>
    simp only [List.map_cons, List.mem_cons, not_or] at h
    have hne : (e.1 == k) = false := by
      rw [beq_eq_false_iff_ne]; exact fun hh => h.1 hh.symm
    simp [keyCount, hne, ih h.2]

theorem keyCount_le_one_of_nodup {α : Type} (l : List (String × α)) (k : String)
    (h : (l.map Prod.fst).Nodup) : keyCount l k ≤ 1 := by
  induction l with
  | nil => simp [keyCount]
  | cons e tl ih =>
    rw [List.map_cons, List.nodup_cons] at h
    by_cases he : (e.1 == k) = true
    · have hek : e.1 = k := eq_of_beq he
      have h0 : keyCount tl k = 0 :=
        keyCount_eq_zero tl k (by rw [← hek]; exact h.1)
      simp [keyCount, he, h0]
    · rw [Bool.not_eq_true] at he
      simp only [keyCount, he, if_false]
      simpa using ih h.2

theorem tableMember_insert (P : Table) (k : String) (tok : Nat) :
    tableMember (tableInsert P k tok) k = true := by
  simp [tableMember, tableInsert]

/-- Claim C1 counterexample: starting from one pending entry, the receive
loop is delivered `ConnectionClosed`; it terminates, yet the correlation
table is NOT empty afterwards (the entry survives) and no future was
resolved — the `except websockets.ConnectionClosed: pass` clause fails
nothing, contradicting the claim that every pending call fails with
`ConnectionClosed` and the table is left empty. -/
theorem C1_counterexample :
    (listenRun ⟨[("a", 0)], [], .running⟩ [.closed]).status = .closedExit ∧
    (listenRun ⟨[("a", 0)], [], .running⟩ [.closed]).table = [("a", 0)] ∧
    (listenRun ⟨[("a", 0)], [], .running⟩ [.closed]).resolvedLog = [] :=
  ⟨rfl, rfl, rfl⟩

/-- Claim C1 (amended): when the receive loop observes `ConnectionClosed`
from `receive()`, it terminates — but every call still pending at that moment
is simply abandoned: no future is resolved or failed, and the correlation
table is left exactly as it was (in particular it is not emptied). -/
theorem C1_close_leaves_table (P : Table) (log : List (String × JVal)) :
    listenStep ⟨P, log, .running⟩ .closed = ⟨P, log, .closedExit⟩ :=
  rfl

/-- Claim C2 counterexample: a single frame that is undecodable as JSON makes
`json.loads` raise; the exception is not caught (only
`websockets.ConnectionClosed` is), so the receive loop terminates — it does
not keep running, contradicting the claim that no single malformed frame
terminates the loop. -/
theorem C2_counterexample :
    (listenRun ⟨[("a", 0)], [], .running⟩ [.frame .undecodable]).status = .crashed ∧
    (listenRun ⟨[("a", 0)], [], .running⟩ [.frame .undecodable]).status ≠ .running :=
  ⟨rfl, by decide⟩

/-- Claim C2 (amended): a frame that decodes to a JSON object missing an id
is dropped and the loop keeps running with the table untouched; but a frame
that is undecodable as JSON raises out of `json.loads` and terminates the
loop (as does a frame decoding to a non-object, via `AttributeError` on
`.get`). -/
theorem C2_malformed (P : Table) (log : List (String × JVal))
    (entries : List (String × JVal)) (h : jsonGet entries "id" = none) :
    listenStep ⟨P, log, .running⟩ (.frame (.decoded (.obj entries))) = ⟨P, log, .running⟩ ∧
    listenStep ⟨P, log, .running⟩ (.frame .undecodable) = ⟨P, log, .crashed⟩ := by
  constructor
  · simp [listenStep, h, midKey]
  · rfl

/-- Witness for C2_malformed at a concrete input: the empty JSON object has
no id. -/
theorem C2_malformed_witness :
    listenStep ⟨[("a", 0)], [], .running⟩ (.frame (.decoded (.obj []))) = ⟨[("a", 0)], [], .running⟩ ∧
    listenStep ⟨[("a", 0)], [], .running⟩ (.frame .undecodable) = ⟨[("a", 0)], [], .crashed⟩ :=
  C2_malformed [("a", 0)] [] [] rfl

/-- Claim C3 counterexample: it is not the case that every mutation of the
shared `pending_requests` dict is performed holding
`pending_requests_lock` — the listener's resolve-and-delete (lines 70-73 of
async_client.py) runs without the lock. -/
theorem C3_counterexample :
    ¬ ((dispatcherMutations "a" ++ listenerMutations "a").all
        (fun m => m.heldLock) = true) := by
  decide

/-- Claim C3 (amended): the caller's registration in `_make_request` is
performed under `pending_requests_lock`, but the receive loop's resolution
and removal is performed without acquiring the lock; only the registration
side is mutex-protected. -/
theorem C3_locking (id : String) :
    (dispatcherMutations id).all (fun m => m.heldLock) = true ∧
    (listenerMutations id).all (fun m => !m.heldLock) = true :=
  ⟨rfl, rfl⟩

/-- Claim C4: in every execution of `_make_request`, whenever the send of the
encoded request occurs in the action trace, the registration of the call's
future in the correlation table occurs strictly earlier in that trace. -/
theorem C4_register_before_send (ws : WsState) (P : Table) (id : String) (tok : Nat)
    (j : Nat) (hj : (makeRequest ws P id tok).trace[j]? = some (.send id)) :
    ∃ i : Nat, i < j ∧ (makeRequest ws P id tok).trace[i]? = some (.registerFuture id) := by
  cases ws with
  | absent =>
    have ht : (makeRequest .absent P id tok).trace = [.guardRaise] := rfl
    rw [ht] at hj
    match j, hj with
    | 0, h => simp at h
    | n + 1, h => simp at h
  | wsOpen =>
    have ht : (makeRequest .wsOpen P id tok).trace
        = [.registerFuture id, .send id, .awaitFuture id] := rfl
    rw [ht] at hj ⊢
    match j, hj with
    | 0, h => simp at h
    | 1, _ => exact ⟨0, by omega, rfl⟩
    | 2, h => simp at h
    | n + 3, h => simp at h
  | wsClosed =>
    have ht : (makeRequest .wsClosed P id tok).trace
        = [.registerFuture id, .send id, .sendRaise] := rfl
    rw [ht] at hj ⊢
    match j, hj with
    | 0, h => simp at h
    | 1, _ => exact ⟨0, by omega, rfl⟩
    | 2, h => simp at h
    | n + 3, h => simp at h

/-- Witness for C4_register_before_send on a concrete open-connection
dispatch. -/
theorem C4_register_before_send_witness :
    ∃ i : Nat, i < 1 ∧
      (makeRequest .wsOpen [] "a" 0).trace[i]? = some (.registerFuture "a") :=
  C4_register_before_send .wsOpen [] "a" 0 1 rfl

/-- Claim C5 counterexample: dispatching on a closed connection makes
`websocket.send` raise `ConnectionClosed`, and the entry registered for the
call's id is NOT removed — the table still holds it afterwards, contradicting
the claim that a failed send cancels the entry and leaks nothing. -/
theorem C5_counterexample :
    (makeRequest .wsClosed [] "a" 0).outcome = .sendClosedError ∧
    (makeRequest .wsClosed [] "a" 0).table = [("a", 0)] :=
  ⟨rfl, rfl⟩

/-- Claim C5 (amended): whenever `send()` fails during `_make_request`, the
`ConnectionClosed` exception propagates to the caller (the call does fail
with it), but the entry registered for that call's id is not removed — it
remains pending in the correlation table (a leak). -/
theorem C5_send_failure_leaks (P : Table) (id : String) (tok : Nat) :
    (makeRequest .wsClosed P id tok).outcome = .sendClosedError ∧
    tableMember (makeRequest .wsClosed P id tok).table id = true :=
  ⟨rfl, by simp [makeRequest]; exact tableMember_insert P id tok⟩

/-- Claim C6 counterexample: a call issued after the connection has been
closed (so the client is not in the Open state) does NOT fail with the
not-connected error — the `if not self.websocket` guard does not fire because
the closed websocket object is still truthy — and the correlation table is
touched (the call registers an entry before the send fails). -/
theorem C6_counterexample :
    (makeRequest .wsClosed [] "a" 0).outcome ≠ .notOpenError ∧
    (makeRequest .wsClosed [] "a" 0).table ≠ ([] : Table) := by
  decide

/-- Claim C6 (amended): only a call issued before any connection was opened
(`self.websocket` is `None`) fails immediately with the not-connected
`RuntimeError`, leaving the table unchanged; a call issued after the
connection has been closed passes the guard, registers an entry in the table,
and then fails with `ConnectionClosed` from the send. -/
theorem C6_guard (P : Table) (id : String) (tok : Nat) :
    (makeRequest .absent P id tok).outcome = .notOpenError ∧
    (makeRequest .absent P id tok).table = P ∧
    (makeRequest .wsClosed P id tok).outcome = .sendClosedError ∧
    tableMember (makeRequest .wsClosed P id tok).table id = true :=
  ⟨rfl, rfl, rfl, by simp [makeRequest]; exact tableMember_insert P id tok⟩

theorem midKey_mem (P : Table) (mid : JVal) (s : String)
    (h : midKey P mid = some s) : tableMember P s = true := by
  cases mid with
  | str t =>
    by_cases ht : tableMember P t = true
    · have hts : t = s := by simpa [midKey, ht] using h
      rw [← hts]; exact ht
    · simp [midKey, ht] at h
  | null => simp [midKey] at h
  | bool b => simp [midKey] at h
  | num n => simp [midKey] at h
  | arr elems => simp [midKey] at h
  | obj entries => simp [midKey] at h

theorem keyCount_delete (P : Table) (s k : String) (hs : tableMember P s = true) :
    keyCount (tableDelete P s) k + (if s == k then 1 else 0) = keyCount P k := by
  induction P with
  | nil => simp [tableMember] at hs
  | cons e tl ih =>
    by_cases he : (e.1 == s) = true
    · have hdel : tableDelete (e :: tl) s = tl := by
        simp [tableDelete, List.eraseP_cons, he]
      have hes : e.1 = s := eq_of_beq he
      rw [hdel]
      simp [keyCount, hes]
      omega
    · rw [Bool.not_eq_true] at he
      have hdel : tableDelete (e :: tl) s = e :: tableDelete tl s := by
        simp [tableDelete, List.eraseP_cons, he]
      have hs' : tableMember tl s = true := by
        simpa [tableMember, he] using hs
      rw [hdel]
      simp only [keyCount]
      rw [← ih hs']
      omega

theorem listenStep_measure (st : ListenState) (e : Event) (k : String) :
    keyCount (listenStep st e).resolvedLog k + keyCount (listenStep st e).table k
      ≤ keyCount st.resolvedLog k + keyCount st.table k := by
  unfold listenStep
  by_cases hst : st.status ≠ .running
  · simp [hst]
  · rw [if_neg hst]
    cases e with
    | closed => exact le_refl _
    | frame f =>
      cases f with
      | undecodable => exact le_refl _
      | decoded v =>
        cases v with
        | obj entries =>
          cases hm : midKey st.table ((jsonGet entries "id").getD .null) with
          | none => simp only [hm]; exact le_refl _
          | some s =>
            simp only [hm]
            rw [keyCount_append]
            have hmem := midKey_mem st.table _ s hm
            have hdel := keyCount_delete st.table s k hmem
            have hone : keyCount [(s, JVal.obj entries)] k = if s == k then 1 else 0 := by
              simp [keyCount]
            rw [hone]
            omega
        | null => exact le_refl _
        | bool b => exact le_refl _
        | num n => exact le_refl _
        | str t => exact le_refl _
        | arr elems => exact le_refl _

theorem listenRun_measure (st : ListenState) (evs : List Event) (k : String) :
    keyCount (listenRun st evs).resolvedLog k + keyCount (listenRun st evs).table k
      ≤ keyCount st.resolvedLog k + keyCount st.table k := by
  induction evs generalizing st with
  | nil => exact le_refl _
  | cons e tl ih =>
    have hrun : listenRun st (e :: tl) = listenRun (listenStep st e) tl := rfl
    rw [hrun]
    exact le_trans (ih (listenStep st e)) (listenStep_measure st e k)

/-- Claim C7: (1) an inbound frame whose id is not a key of the correlation
table (unknown, already-resolved or cancelled) leaves the listener state
completely unchanged — nothing is resolved, no other entry is removed, the
loop keeps running; (2) consequently, over any run of the receive loop from a
table with distinct keys, each id receives `set_result` at most once. -/
theorem C7_unmatched_dropped_and_at_most_once :
    (∀ (st : ListenState) (entries : List (String × JVal)),
        st.status = .running →
        midKey st.table ((jsonGet entries "id").getD .null) = none →
        listenStep st (.frame (.decoded (.obj entries))) = st) ∧
    (∀ (P : Table) (evs : List Event) (k : String),
        (P.map Prod.fst).Nodup →
        keyCount (listenRun ⟨P, [], .running⟩ evs).resolvedLog k ≤ 1) := by
  constructor
  · intro st entries hs hm
    unfold listenStep
    rw [if_neg (by simp [hs])]
    simp [hm]
  · intro P evs k hnd
    have h1 := listenRun_measure ⟨P, [], .running⟩ evs k
    have h2 : keyCount ([] : List (String × JVal)) k = 0 := rfl
    have h3 := keyCount_le_one_of_nodup P k hnd
    simp only [h2] at h1
    omega

/-- Witness for C7 at concrete inputs: a frame with an unknown id "z" is
dropped, and delivering two duplicate frames for id "b" resolves it only
once. -/
theorem C7_witness :
    listenStep ⟨[("a", 0)], [], .running⟩ (.frame (.decoded (.obj [("id", .str "z")])))
      = ⟨[("a", 0)], [], .running⟩ ∧
    keyCount (listenRun ⟨[("b", 1)], [], .running⟩
        [.frame (.decoded (.obj [("id", .str "b")])),
         .frame (.decoded (.obj [("id", .str "b")]))]).resolvedLog "b" ≤ 1 :=
  ⟨C7_unmatched_dropped_and_at_most_once.1 ⟨[("a", 0)], [], .running⟩
      [("id", .str "z")] rfl rfl,
   C7_unmatched_dropped_and_at_most_once.2 [("b", 1)] _ "b" (by simp)⟩

/-- Claim C8 counterexample: two response envelopes whose error objects carry
different numeric codes (-1 and -2, neither in `ERROR_CODE_MAP`) but the same
message make the call fail with IDENTICAL exceptions — the base
`DeribitAPIException` storing only the message.  The raised API error
therefore does not carry the envelope's numeric error code. -/
theorem C8_counterexample :
    finishRequest [("error", .obj [("code", .num (-1)), ("message", .str "boom")])]
      = .raised ⟨.deribitAPIException, .str "boom"⟩ ∧
    finishRequest [("error", .obj [("code", .num (-2)), ("message", .str "boom")])]
      = .raised ⟨.deribitAPIException, .str "boom"⟩ :=
  ⟨rfl, rfl⟩

/-- Claim C8 (amended): when the resolved envelope carries no error object,
the call returns the envelope's result value; when it carries a non-empty
error object, the call raises an exception whose class is selected by looking
the error's numeric code up in `ERROR_CODE_MAP` (falling back to the base
`DeribitAPIException`) and which stores the error's message (a subclass
substitutes its default text for a missing/empty message) — the numeric code
itself is not stored on the exception. -/
theorem C8_error_dispatch (data : List (String × JVal)) :
    ((JsonRpcResponse.from_dict data).is_error = false →
        finishRequest data = .result ((jsonGet data "result").getD .null)) ∧
    (∀ entries : List (String × JVal),
        (JsonRpcResponse.from_dict data).error = .obj entries → entries ≠ [] →
        finishRequest data =
          .raised (mkExc
            (match ERROR_CODE_MAP.find? (fun e =>
                match (jsonGet entries "code").getD .null with
                | .num n => n == e.1
                | _ => false) with
              | some e => e.2
              | none => .deribitAPIException)
            ((jsonGet entries "message").getD .null))) := by
  constructor
  · intro h
    simp only [finishRequest]
    rw [h]
    simp [JsonRpcResponse.from_dict]
  · intro entries he hne
    have htr : pyTruthy (JsonRpcResponse.from_dict data).error = true := by
      rw [he]
      cases entries with
      | nil => exact absurd rfl hne
      | cons x tl => rfl
    have hierr : (JsonRpcResponse.from_dict data).is_error = true := by
      rw [JsonRpcResponse.is_error, he]
      rfl
    have hc : (JsonRpcResponse.from_dict data).error_code
        = some ((jsonGet entries "code").getD .null) := by
      rw [JsonRpcResponse.error_code, if_pos htr, he]
    have hm : (JsonRpcResponse.from_dict data).error_message
        = some ((jsonGet entries "message").getD .null) := by
      rw [JsonRpcResponse.error_message, if_pos htr, he]
    simp only [finishRequest]
    rw [hierr, hc, hm]
    rfl

/-- Witness for C8_error_dispatch: a plain result envelope returns its
result; an envelope with mapped code -32602 raises `InvalidParamsError`
storing the message. -/
theorem C8_error_dispatch_witness :
    finishRequest [("result", .num 7)] = .result (.num 7) ∧
    finishRequest [("error", .obj [("code", .num (-32602)), ("message", .str "bad")])]
      = .raised (mkExc .invalidParamsError (.str "bad")) :=
  ⟨(C8_error_dispatch [("result", .num 7)]).1 rfl,
   (C8_error_dispatch [("error", .obj [("code", .num (-32602)), ("message", .str "bad")])]).2
     [("code", .num (-32602)), ("message", .str "bad")] rfl (by simp)⟩

/-- Claim C9: encoding a request envelope to its wire dictionary (the value
`json.dumps` serializes and JSON decoding brings back unchanged) and reading
it back reproduces the method, the params mapping, and the id exactly, for
every method string, params mapping and id. -/
theorem C9_roundtrip (m : String) (p : List (String × JVal)) (i v : String) :
    jsonGet (JsonRpcRequest.to_dict ⟨m, p, i, v⟩) "method" = some (.str m) ∧
    jsonGet (JsonRpcRequest.to_dict ⟨m, p, i, v⟩) "params" = some (.obj p) ∧
    jsonGet (JsonRpcRequest.to_dict ⟨m, p, i, v⟩) "id" = some (.str i) :=
  ⟨rfl, rfl, rfl⟩

theorem any_key_map_set (d : List (String × JVal)) (k' k : String) (v : JVal)
    (h : (k' == k) = false) :
    (d.map (fun e => if e.1 == k' then (k', v) else e)).any (fun e => e.1 == k)
      = d.any (fun e => e.1 == k) := by
  induction d with
  | nil => rfl
  | cons e tl ih =>
    simp only [List.map_cons, List.any_cons, ih]
    by_cases he : (e.1 == k') = true
    · have hek : e.1 = k' := eq_of_beq he
      simp [he, h, hek]
    · rw [Bool.not_eq_true] at he
      simp [he]

theorem hasKey_dictSet_ne (d : List (String × JVal)) (k' : String) (v : JVal)
    (k : String) (h : (k' == k) = false) :
    hasKey (dictSet d k' v) k = hasKey d k := by
  unfold hasKey dictSet
  by_cases hd : (d.any (fun e => e.1 == k')) = true
  · rw [if_pos hd]
    exact any_key_map_set d k' k v h
  · rw [Bool.not_eq_true] at hd
    rw [if_neg (by simp [hd])]
    simp [List.any_append, h]

theorem hasKey_dictUpdate (d m : List (String × JVal)) (k : String)
    (h : ∀ e ∈ m, (e.1 == k) = false) :
    hasKey (dictUpdate d m) k = hasKey d k := by
  induction m generalizing d with
  | nil => rfl
  | cons e tl ih =>
    have hstep : dictUpdate d (e :: tl) = dictUpdate (dictSet d e.1 e.2) tl := rfl
    rw [hstep, ih (dictSet d e.1 e.2) (fun x hx => h x (List.mem_cons_of_mem _ hx))]
    exact hasKey_dictSet_ne d e.1 e.2 k (h e (List.mem_cons_self _ _))

/-- Claim C10 counterexample: a `JsonRpcResponse` whose `metadata` carries a
`"result"` key (which `to_dict` merges in via `data.update(self.metadata)`)
serializes with BOTH `"error"` and `"result"` keys even though its error
field is set — so it is not true of every `JsonRpcResponse` value that
`to_dict` contains `"result"` iff `error` is `None`, nor that exactly one of
the two keys is present. -/
theorem C10_counterexample :
    hasKey (JsonRpcResponse.to_dict
      ⟨.null, .obj [("code", .num 1)], .null, .str "2.0", [("result", .num 5)]⟩) "error" = true ∧
    hasKey (JsonRpcResponse.to_dict
      ⟨.null, .obj [("code", .num 1)], .null, .str "2.0", [("result", .num 5)]⟩) "result" = true ∧
    isNull (JsonRpcResponse.error
      ⟨.null, .obj [("code", .num 1)], .null, .str "2.0", [("result", .num 5)]⟩) = false :=
  ⟨rfl, rfl, rfl⟩

/-- Claim C10 (amended): for every `JsonRpcResponse` whose metadata contains
neither a `"result"` nor an `"error"` key, the dictionary produced by
`to_dict` contains `"error"` iff the error field is not `None` and contains
`"result"` iff the error field is `None` (so exactly one of the two); and
every response produced by `from_dict` has such metadata, since `from_dict`
filters those keys out. -/
theorem C10_exactly_one_key :
    (∀ r : JsonRpcResponse,
        "result" ∉ r.metadata.map Prod.fst →
        "error" ∉ r.metadata.map Prod.fst →
        hasKey r.to_dict "error" = !isNull r.error ∧
        hasKey r.to_dict "result" = isNull r.error) ∧
    (∀ data : List (String × JVal),
        "result" ∉ (JsonRpcResponse.from_dict data).metadata.map Prod.fst ∧
        "error" ∉ (JsonRpcResponse.from_dict data).metadata.map Prod.fst) := by
  constructor
  · intro r h1 h2
    have hm1 : ∀ e ∈ r.metadata, (e.1 == "result") = false := by
      intro e hemem
      rw [beq_eq_false_iff_ne]
      exact fun hk => h1 (List.mem_map.mpr ⟨e, hemem, hk⟩)
    have hm2 : ∀ e ∈ r.metadata, (e.1 == "error") = false := by
      intro e hemem
      rw [beq_eq_false_iff_ne]
      exact fun hk => h2 (List.mem_map.mpr ⟨e, hemem, hk⟩)
    constructor
    · rw [show r.to_dict = dictUpdate
          (if isNull r.error
            then [("jsonrpc", r.jsonrpc), ("id", r.request_id)] ++ [("result", r.result)]
            else [("jsonrpc", r.jsonrpc), ("id", r.request_id)] ++ [("error", r.error)])
          r.metadata from rfl]
      rw [hasKey_dictUpdate _ _ _ hm2]
      cases he : isNull r.error <;> rfl
    · rw [show r.to_dict = dictUpdate
          (if isNull r.error
            then [("jsonrpc", r.jsonrpc), ("id", r.request_id)] ++ [("result", r.result)]
            else [("jsonrpc", r.jsonrpc), ("id", r.request_id)] ++ [("error", r.error)])
          r.metadata from rfl]
      rw [hasKey_dictUpdate _ _ _ hm1]
      cases he : isNull r.error <;> rfl
  · intro data
    constructor
    · intro hmem
      rcases List.mem_map.mp hmem with ⟨e, hef, hfst⟩
      have hf := (List.mem_filter.mp hef).2
      simp [hfst] at hf
    · intro hmem
      rcases List.mem_map.mp hmem with ⟨e, hef, hfst⟩
      have hf := (List.mem_filter.mp hef).2
      simp [hfst] at hf

/-- Witness for C10_exactly_one_key on a concrete success envelope with
empty metadata: no `"error"` key, a `"result"` key. -/
theorem C10_exactly_one_key_witness :
    hasKey (JsonRpcResponse.to_dict ⟨.num 7, .null, .null, .str "2.0", []⟩) "error" = false ∧
    hasKey (JsonRpcResponse.to_dict ⟨.num 7, .null, .null, .str "2.0", []⟩) "result" = true :=
  ⟨(C10_exactly_one_key.1 ⟨.num 7, .null, .null, .str "2.0", []⟩
      (by simp) (by simp)).1,
   (C10_exactly_one_key.1 ⟨.num 7, .null, .null, .str "2.0", []⟩
      (by simp) (by simp)).2⟩

end DeribitSpec
